import Mathlib

set_option maxRecDepth 4000

/-
Shallow embedding of nite-stdcmd (src/nite_stdcmd/__init__.py): the
CommandEvent value object, the handler registry and dispatch listener
(StdCmd.on_command with the help/stop/reload built-ins), the per-connection
read path (CommandHandler.handle_read), the socket-family autodetection of
CommandServer.__init__, and the StdCmd start/stop lifecycle.  Byte strings
are lists of Nat below 256; machine I/O (sockets, threads, the asyncore
loop) is represented by the data it carries.
-/

/-- Event wrapper around an executed command (class CommandEvent): a command
string, an optional response and a handled flag, all plain mutable fields. -/
structure CommandEvent where
  command : String
  response : Option String
  handled : Bool
deriving DecidableEq

/-- CommandEvent.__init__: populate the event; response starts as None and
handled as False. -/
def CommandEvent.init (command : String) : CommandEvent :=
  { command := command, response := none, handled := false }

/-- Calls a handler makes on the host application object (self.NITE.stop()
and self.NITE.start()); the host itself is an external collaborator. -/
inductive HostCall
  | stop
  | start
deriving DecidableEq

/-- One value of the handlers dict: the [description, callback] pair. -/
structure RegEntry where
  descr : String
  run : CommandEvent → CommandEvent × List HostCall

/-- The handlers dict: an insertion-ordered association list whose keys are
unique (a Python dict literal); lookup finds the first matching key. -/
abbrev Registry := List (String × RegEntry)

/-- Two-column rendering of (token, description) rows: PrettyTable is an
external formatting library, represented as a header line followed by one
line per row in the order given. -/
def tableLines (rows : List (String × String)) : List String :=
  "| Command | Description |" :: rows.map (fun r => "| " ++ r.1 ++ " | " ++ r.2 ++ " |")

/-- The rendered table text (str(table)). -/
def renderTable (rows : List (String × String)) : String :=
  String.intercalate "\n" (tableLines rows)

/-- StdCmd.on_help_command: build the table from the (token, description)
rows of self.handlers, in dict iteration order, and store its rendering in
the response.  The terminal-width probe (stty) only bounds PrettyTable line
wrapping and carries no row data, so it is elided. -/
def on_help_command (rows : List (String × String)) (e : CommandEvent) :
    CommandEvent × List HostCall :=
  ({ e with response := some (renderTable rows) }, [])

/-- StdCmd.on_stop_command: call self.NITE.stop(); the event is untouched. -/
def on_stop_command (e : CommandEvent) : CommandEvent × List HostCall :=
  (e, [HostCall.stop])

/-- StdCmd.on_reload_command: call self.NITE.stop() then self.NITE.start(). -/
def on_reload_command (e : CommandEvent) : CommandEvent × List HostCall :=
  (e, [HostCall.stop, HostCall.start])

/-- The (token, description) rows of a registry, in insertion order: the
iteration order of self.handlers.items(). -/
def registryRows (reg : Registry) : List (String × String) :=
  reg.map (fun p => (p.1, p.2.descr))

/-- The rows of the registry built by StdCmd.start, in dict literal order. -/
def defaultRows : List (String × String) :=
  [("help", "Show this help menu"), ("stop", "Stop NITE"), ("reload", "Reload NITE")]

/-- The handlers dict built by StdCmd.start.  In the source on_help_command
reads self.handlers at call time; here the self reference is resolved by
handing the rows of this very registry to the help callback (the two agree,
see registryRows_defaultHandlers below). -/
def defaultHandlers : Registry :=
  [("help", { descr := "Show this help menu", run := on_help_command defaultRows }),
   ("stop", { descr := "Stop NITE", run := on_stop_command }),
   ("reload", { descr := "Reload NITE", run := on_reload_command })]

/-- Python str.split(sep) with an explicit one-character separator: splits at
every occurrence and keeps empty pieces; the empty string gives one empty
piece. -/
def pySplit (sep : Char) : List Char → List (List Char)
  | [] => [[]]
  | c :: rest =>
    if c = sep then [] :: pySplit sep rest
    else
      match pySplit sep rest with
      | [] => [[c]]
      | h :: t => (c :: h) :: t

/-- The dispatch key: cmd_event.command.split(' ')[0], the text before the
first space (the whole command when it has no space, empty for an empty or
space-led command). -/
def commandToken (s : String) : String :=
  String.mk ((pySplit ' ' s.data).headD [])

/-- The error text stored for an unregistered token, with the full command
interpolated for %s: it names the invalid command and points at help. -/
def invalidCommandMessage (command : String) : String :=
  "Invalid command: " ++ command ++ "\nTry using \"help\" for a list of commands"

/-- StdCmd.on_command, the dispatch listener: a no-op when the event is
already handled; otherwise resolve the token against the registry and run
the callback, or store the invalid-command message in the response. -/
def on_command (reg : Registry) (e : CommandEvent) : CommandEvent × List HostCall :=
  if e.handled then (e, [])
  else
    match reg.lookup (commandToken e.command) with
    | some entry => entry.run e
    | none => ({ e with response := some (invalidCommandMessage e.command) }, [])

/-- The bytes Python bytes.rstrip() strips by default: ASCII whitespace
(space, tab, newline, carriage return, vertical tab, form feed). -/
def isSpaceByte (b : Nat) : Bool :=
  b == 32 || b == 9 || b == 10 || b == 13 || b == 11 || b == 12

/-- Python bytes.rstrip(): drop trailing ASCII whitespace bytes. -/
def bytesRstrip (l : List Nat) : List Nat :=
  (l.reverse.dropWhile isSpaceByte).reverse

/-- Whether a byte is in the UTF-8 continuation range given for its slot. -/
def contOK (lo hi b : Nat) : Bool := lo ≤ b && b ≤ hi

/-- Fuel-driven model of the CPython UTF-8 decoder with errors set to ignore:
valid one- to four-byte sequences become their scalar value; an invalid
maximal subpart (stray continuation byte, bad leader, truncated or
out-of-range sequence) is skipped without producing output.  Every step
consumes at least one byte, so byte-list length is enough fuel. -/
def utf8Aux : Nat → List Nat → List Char
  | 0, _ => []
  | _, [] => []
  | fuel + 1, b :: rest =>
    if b < 128 then Char.ofNat b :: utf8Aux fuel rest
    else if 194 ≤ b && b ≤ 223 then
      match rest with
      | [] => []
      | c1 :: rest2 =>
        if contOK 128 191 c1 then
          Char.ofNat ((b - 192) * 64 + (c1 - 128)) :: utf8Aux fuel rest2
        else utf8Aux fuel rest
    else if 224 ≤ b && b ≤ 239 then
      let lo1 := if b == 224 then 160 else 128
      let hi1 := if b == 237 then 159 else 191
      match rest with
      | [] => []
      | [c1] => if contOK lo1 hi1 c1 then [] else utf8Aux fuel [c1]
      | c1 :: c2 :: rest3 =>
        if contOK lo1 hi1 c1 then
          if contOK 128 191 c2 then
            Char.ofNat ((b - 224) * 4096 + (c1 - 128) * 64 + (c2 - 128)) :: utf8Aux fuel rest3
          else utf8Aux fuel (c2 :: rest3)
        else utf8Aux fuel rest
    else if 240 ≤ b && b ≤ 244 then
      let lo1 := if b == 240 then 144 else 128
      let hi1 := if b == 244 then 143 else 191
      match rest with
      | [] => []
      | [c1] => if contOK lo1 hi1 c1 then [] else utf8Aux fuel [c1]
      | [c1, c2] =>
        if contOK lo1 hi1 c1 then
          if contOK 128 191 c2 then [] else utf8Aux fuel [c2]
        else utf8Aux fuel [c1, c2]
      | c1 :: c2 :: c3 :: rest4 =>
        if contOK lo1 hi1 c1 then
          if contOK 128 191 c2 then
            if contOK 128 191 c3 then
              Char.ofNat ((b - 240) * 262144 + (c1 - 128) * 4096 + (c2 - 128) * 64 + (c3 - 128))
                :: utf8Aux fuel rest4
            else utf8Aux fuel (c3 :: rest4)
          else utf8Aux fuel (c2 :: c3 :: rest4)
        else utf8Aux fuel rest
    else utf8Aux fuel rest

/-- bytes.decode('UTF8', 'ignore') on a byte string. -/
def utf8DecodeIgnore (l : List Nat) : List Char := utf8Aux l.length l

/-- self.server.module.NITE.events.handle(cmd_event): the external event bus
fires the event synchronously through its registered listeners; this module
registers exactly one listener for CommandEvent, on_command.  The host calls
a handler may trigger do not feed back into the read path. -/
def events_handle (reg : Registry) (e : CommandEvent) : CommandEvent :=
  (on_command reg e).1

/-- CommandHandler.handle_read on one received chunk: rstrip the raw bytes,
decode them ignoring invalid sequences, and when the text is non-empty build
a CommandEvent, dispatch it, and send response + newline back when the
response is truthy.  Returns the dispatched event (if any) and the text
written to the peer (if any; the socket write sends its UTF-8 encoding). -/
def handle_read (reg : Registry) (chunk : List Nat) : Option CommandEvent × Option String :=
  let data := String.mk (utf8DecodeIgnore (bytesRstrip chunk))
  if data = "" then (none, none)
  else
    let e := events_handle reg (CommandEvent.init data)
    (some e,
     match e.response with
     | none => none
     | some r => if r = "" then none else some (r ++ "\n"))

/-- The characters Python str whitespace stripping removes, restricted to
ASCII (the only characters these claims exercise). -/
def isSpaceChar (c : Char) : Bool :=
  c == ' ' || c == '\t' || c == '\n' || c == '\r' || c == '\x0b' || c == '\x0c'

/-- Spec-side definition, following the words of the spec for comparison with
handle_read: the chunk decoded first and trimmed of trailing whitespace
afterwards. -/
def strRstrip (s : String) : String :=
  String.mk ((s.data.reverse.dropWhile isSpaceChar).reverse)

/-- The socket address family chosen by CommandServer.__init__. -/
inductive SocketFamily
  | AF_UNIX
  | AF_INET
deriving DecidableEq

/-- The bind_args value later passed to bind: the whole address as a
filesystem path for AF_UNIX, or a (host, port) pair for AF_INET where the
port is int(...) of the text after the last colon (none when that text is
not an integer, the case where int() raises). -/
inductive BindArgs
  | path (p : List Char)
  | hostPort (host : List Char) (port : Option Int)
deriving DecidableEq

/-- The data CommandServer.__init__ derives from its bind address. -/
structure ServerInit where
  family : SocketFamily
  bindArgs : BindArgs
deriving DecidableEq

/-- ':'.join(pieces). -/
def intercalateColon : List (List Char) → List Char
  | [] => []
  | [x] => x
  | x :: rest => x ++ ':' :: intercalateColon rest

/-- The numeric value of a run of decimal digit characters. -/
def natOfDigits (ds : List Char) : Nat :=
  ds.foldl (fun a c => a * 10 + (c.toNat - 48)) 0

/-- Model of Python int() on a string: optional surrounding whitespace, an
optional sign, then decimal digits; anything else raises, modelled as none.
(Digit-group underscores and non-ASCII digits are not modelled.) -/
def pyToInt (s : List Char) : Option Int :=
  let t := ((s.dropWhile isSpaceChar).reverse.dropWhile isSpaceChar).reverse
  match t with
  | [] => none
  | '-' :: ds =>
    if !ds.isEmpty && ds.all Char.isDigit then some (-(natOfDigits ds : Int)) else none
  | '+' :: ds =>
    if !ds.isEmpty && ds.all Char.isDigit then some ((natOfDigits ds : Int)) else none
  | ds =>
    if ds.all Char.isDigit then some ((natOfDigits ds : Int)) else none

/-- CommandServer.__init__: split the address on every colon; one piece means
a Unix-domain socket bound to the whole address as a path, otherwise a TCP
socket bound to (':'.join(pieces[0:-1]), int(pieces[-1])).  The reuse-addr
flag, stale-socket-file removal and listen(backlog) are external socket
effects carrying no further data. -/
def CommandServer.init (bind_address : List Char) : ServerInit :=
  let split := pySplit ':' bind_address
  if split.length = 1 then
    { family := SocketFamily.AF_UNIX, bindArgs := BindArgs.path bind_address }
  else
    { family := SocketFamily.AF_INET,
      bindArgs := BindArgs.hostPort (intercalateColon split.dropLast)
        (pyToInt (split.getLastD [])) }

/-- Spec-side definition, following the words of the spec for comparison with
CommandServer.init: split the address at its last colon into the part before
it and the part after it; none when the address has no colon. -/
def splitLastColon (s : List Char) : Option (List Char × List Char) :=
  match s.reverse.dropWhile (· != ':') with
  | [] => none
  | _ :: br => some (br.reverse, (s.reverse.takeWhile (· != ':')).reverse)

/-- The priority grades of the external nite event bus (nite.event
EventPriority); on_command is registered at LOWEST. -/
inductive EventPriority
  | LOWEST
  | LOW
  | NORMAL
  | HIGH
  | HIGHEST
deriving DecidableEq

/-- The controller state of StdCmd, mirroring its instance attributes: the
handlers dict, the command server, the server thread and the terminate
event.  A terminate value some b is a threading.Event whose internal flag is
b; none means the attribute was never created. -/
structure StdCmdState where
  handlers : Option Registry
  server : Option ServerInit
  thread : Option Unit
  terminate : Option Bool

/-- Modelled from the spec: the controller state before start().  The base
class AbstractModule comes from the external nite package and is not part of
this repository; per the spec the execution-context fields are None until
start. -/
def initialState : StdCmdState :=
  { handlers := none, server := none, thread := none, terminate := none }

/-- The nite.command.bind_address configuration default. -/
def defaultBindAddress : String := "/tmp/nite.sock"

/-- StdCmd.start: rebuild the handlers dict; when the configured bind address
is truthy (non-empty), create the server thread and the (initially unset)
terminate event and start the thread; finally register on_command on the
host event bus for CommandEvent at LOWEST priority — in the source that
registration sits after the conditional block and runs unconditionally.
Returns the new state together with the priorities of the bus registrations
performed by this call. -/
def StdCmd.start (bind_address : String) (s : StdCmdState) :
    StdCmdState × List EventPriority :=
  let s1 := { s with handlers := some defaultHandlers }
  let s2 :=
    if bind_address = "" then s1
    else { s1 with thread := some (), terminate := some false }
  (s2, [EventPriority.LOWEST])

/-- threading.Event.set() applied to the terminate attribute: raise the flag
of the event when it exists. -/
def eventSet (t : Option Bool) : Option Bool :=
  t.map (fun _ => true)

/-- StdCmd.stop: when the server thread exists, set the terminate event; the
join is commented out in the source on purpose (stop may run on the server
thread itself), so stop performs no further action. -/
def StdCmd.stop (s : StdCmdState) : StdCmdState :=
  if s.thread.isSome then { s with terminate := eventSet s.terminate } else s

/-
Helper lemmas (shared; claim theorems never depend on one another).
-/

/-- The registry rows handed to the help callback in defaultHandlers are
exactly the rows of defaultHandlers itself: the self reference of the source
is tied consistently. -/
theorem registryRows_defaultHandlers : registryRows defaultHandlers = defaultRows := rfl

theorem pySplit_ne_nil (sep : Char) (s : List Char) : pySplit sep s ≠ [] := by
  cases s with
  | nil => simp [pySplit]
  | cons c rest =>
    simp only [pySplit]
    split
    · simp
    · split <;> simp

theorem pySplit_not_mem (sep : Char) (s : List Char) (h : sep ∉ s) :
    pySplit sep s = [s] := by
  induction s with
  | nil => rfl
  | cons c rest ih =>
    have hc : ¬ c = sep := fun hcc => h (hcc ▸ List.mem_cons_self c rest)
    have hr : sep ∉ rest := fun hm => h (List.mem_cons_of_mem _ hm)
    simp only [pySplit, if_neg hc, ih hr]

theorem pySplit_append (sep : Char) (xs ys : List Char) :
    pySplit sep (xs ++ sep :: ys) = pySplit sep xs ++ pySplit sep ys := by
  induction xs with
  | nil => simp [pySplit]
  | cons c xs ih =>
    by_cases hc : c = sep
    · simp only [List.cons_append, pySplit, if_pos hc, List.append_eq, ih]
    · simp only [List.cons_append, pySplit, if_neg hc, List.append_eq]
      rw [ih]
      cases hps : pySplit sep xs with
      | nil => exact absurd hps (pySplit_ne_nil sep xs)
      | cons h t => simp [hps]

theorem intercalateColon_pySplit (s : List Char) :
    intercalateColon (pySplit ':' s) = s := by
  induction s with
  | nil => rfl
  | cons c rest ih =>
    simp only [pySplit]
    by_cases hc : c = ':'
    · subst hc
      simp only [if_pos rfl]
      cases hps : pySplit ':' rest with
      | nil => exact absurd hps (pySplit_ne_nil _ _)
      | cons h t =>
        rw [hps] at ih
        simpa [intercalateColon] using ih
    · simp only [if_neg hc]
      cases hps : pySplit ':' rest with
      | nil => exact absurd hps (pySplit_ne_nil _ _)
      | cons h t =>
        rw [hps] at ih
        cases t with
        | nil =>
          simp only [intercalateColon] at ih ⊢
          rw [ih]
        | cons t0 ts =>
          simp only [intercalateColon] at ih ⊢
          rw [List.cons_append, ih]

theorem dropWhile_head_false {α : Type} (p : α → Bool) :
    ∀ (l : List α) (c : α) (br : List α), l.dropWhile p = c :: br → p c = false := by
  intro l
  induction l with
  | nil => intro c br h; simp [List.dropWhile] at h
  | cons x xs ih =>
    intro c br h
    by_cases hx : p x
    · simp only [List.dropWhile, hx] at h
      exact ih _ _ h
    · have hx' : p x = false := by simpa using hx
      simp only [List.dropWhile, hx'] at h
      injection h with hxc hbr
      subst hxc
      exact hx'

theorem getLastD_append_single {α : Type} (l : List α) (a : α) :
    ∀ d, (l ++ [a]).getLastD d = a := by
  induction l with
  | nil => intro d; rfl
  | cons x xs ih =>
    intro d
    rw [List.cons_append, List.getLastD_cons]
    exact ih x

theorem splitLastColon_decomp (s h p : List Char)
    (hs : splitLastColon s = some (h, p)) : s = h ++ ':' :: p ∧ ':' ∉ p := by
  unfold splitLastColon at hs
  cases hd : s.reverse.dropWhile (· != ':') with
  | nil => rw [hd] at hs; simp at hs
  | cons c br =>
    rw [hd] at hs
    simp only [Option.some.injEq, Prod.mk.injEq] at hs
    obtain ⟨hh, hp⟩ := hs
    have hc : (c != ':') = false :=
      dropWhile_head_false (fun x => x != ':') s.reverse c br hd
    have hc' : c = ':' := by simpa using hc
    have hsplit : s.reverse.takeWhile (· != ':') ++ (c :: br) = s.reverse := by
      rw [← hd]; exact List.takeWhile_append_dropWhile _ _
    constructor
    · have hsrev : s = (s.reverse.takeWhile (· != ':') ++ (c :: br)).reverse := by
        rw [hsplit, List.reverse_reverse]
      rw [hsrev, List.reverse_append, List.reverse_cons, hh, hp, hc']
      simp
    · intro hmem
      rw [← hp, List.mem_reverse] at hmem
      have := List.mem_takeWhile_imp hmem
      simp at this

theorem splitLastColon_none_no_colon (s : List Char)
    (hs : splitLastColon s = none) : ':' ∉ s := by
  unfold splitLastColon at hs
  cases hd : s.reverse.dropWhile (· != ':') with
  | cons c br => rw [hd] at hs; simp at hs
  | nil =>
    have hall : ∀ x ∈ s.reverse, (x != ':') = true := List.dropWhile_eq_nil_iff.mp hd
    intro hmem
    have := hall ':' (List.mem_reverse.mpr hmem)
    simp at this

theorem on_command_default_preserves_command (e : CommandEvent) :
    ((on_command defaultHandlers e).1).command = e.command := by
  unfold on_command
  by_cases hh : e.handled = true
  · simp [hh]
  · simp only [hh, if_false]
    cases hl : defaultHandlers.lookup (commandToken e.command) with
    | none => rfl
    | some entry =>
      simp only [defaultHandlers, List.lookup] at hl
      split at hl
      · cases hl; rfl
      · split at hl
        · cases hl; rfl
        · split at hl
          · cases hl; rfl
          · cases hl

theorem bytesRstrip_all_space (l : List Nat) (h : l.all isSpaceByte = true) :
    bytesRstrip l = [] := by
  unfold bytesRstrip
  have hrev : l.reverse.dropWhile isSpaceByte = [] := by
    rw [List.dropWhile_eq_nil_iff]
    intro x hx
    exact List.all_eq_true.mp h x (List.mem_reverse.mp hx)
  rw [hrev]
  rfl

/-
Claim theorems.
-/

/-- Claim C1 (confirmed): for every registry and CommandEvent whose token
(the text of event.command before the first space) is not a registry key and
whose handled flag is false, on_command stores the error message — which
names the invalid command and points the user at the help token — in
event.response, leaves handled false, and makes no host calls. -/
theorem on_command_unknown_token (reg : Registry) (e : CommandEvent)
    (hh : e.handled = false)
    (hl : reg.lookup (commandToken e.command) = none) :
    (on_command reg e).1.response = some (invalidCommandMessage e.command) ∧
    (on_command reg e).1.handled = false ∧
    (on_command reg e).2 = [] := by
  simp [on_command, hh, hl]

/-- Witness for C1: the unregistered command bogus against the built-in
registry produces the invalid-command response and stays unhandled. -/
theorem on_command_unknown_token_witness :
    (on_command defaultHandlers (CommandEvent.init "bogus")).1.response =
      some (invalidCommandMessage "bogus") ∧
    (on_command defaultHandlers (CommandEvent.init "bogus")).1.handled = false :=
  ⟨(on_command_unknown_token defaultHandlers (CommandEvent.init "bogus") rfl rfl).1,
   (on_command_unknown_token defaultHandlers (CommandEvent.init "bogus") rfl rfl).2.1⟩

/-- Claim C2 (confirmed): for every registry and CommandEvent whose handled
flag is already true, on_command returns the event unchanged — command,
response and handled keep their prior values — runs no handler callback and
makes no host calls. -/
theorem on_command_already_handled (reg : Registry) (e : CommandEvent)
    (hh : e.handled = true) : on_command reg e = (e, []) := by
  simp [on_command, hh]

/-- Witness for C2: a pre-handled stop command passes through untouched. -/
theorem on_command_already_handled_witness :
    on_command defaultHandlers { command := "stop", response := none, handled := true } =
      ({ command := "stop", response := none, handled := true }, []) :=
  on_command_already_handled defaultHandlers _ rfl

/-- Claim C7 (confirmed): on every controller state whose server thread
exists (as after start with a configured bind address, which also creates
the terminate event), stop sets the terminate event flag and modifies no
other controller state: handlers, server and thread are untouched.  The
model performs no join; the source has the join deliberately commented out
because stop can run on the server thread itself. -/
theorem stdcmd_stop_signals_terminate (s : StdCmdState)
    (ht : s.thread = some ()) (he : s.terminate.isSome = true) :
    (StdCmd.stop s).terminate = some true ∧
    (StdCmd.stop s).thread = s.thread ∧
    (StdCmd.stop s).handlers = s.handlers ∧
    (StdCmd.stop s).server = s.server := by
  unfold StdCmd.stop
  rw [ht]
  cases hterm : s.terminate with
  | none => rw [hterm] at he; simp at he
  | some b => simp [eventSet, hterm]

/-- Witness for C7: stopping the controller right after a started lifecycle
raises the terminate flag and keeps the thread. -/
theorem stdcmd_stop_signals_terminate_witness :
    (StdCmd.stop (StdCmd.start "/tmp/nite.sock" initialState).1).terminate = some true ∧
    (StdCmd.stop (StdCmd.start "/tmp/nite.sock" initialState).1).thread = some () :=
  ⟨(stdcmd_stop_signals_terminate (StdCmd.start "/tmp/nite.sock" initialState).1 rfl rfl).1,
   ((stdcmd_stop_signals_terminate (StdCmd.start "/tmp/nite.sock" initialState).1
      rfl rfl).2.1).trans rfl⟩

/-- Claim C8 counterexample: with an empty bind address, start creates no
thread and no terminate event, yet it still performs the event-bus
registration of the dispatch listener at LOWEST priority — the register call
sits after the conditional block in the source, so the claim that dispatch
is registered only when a bind address is configured is false. -/
theorem start_registers_despite_empty_bind :
    (StdCmd.start "" initialState).2 = [EventPriority.LOWEST] ∧
    (StdCmd.start "" initialState).1.thread = none ∧
    (StdCmd.start "" initialState).1.terminate = none :=
  ⟨rfl, rfl, rfl⟩

/-- Claim C8 (corrected): when the bind address is empty, start leaves the
thread and terminate fields untouched (no background context and no
termination signal are created); when it is non-empty, both are created; and
in either case start rebuilds the handlers dict and registers the dispatch
listener on the event bus at LOWEST priority unconditionally. -/
theorem start_lifecycle (bind : String) (s : StdCmdState) :
    (bind = "" →
      (StdCmd.start bind s).1.thread = s.thread ∧
      (StdCmd.start bind s).1.terminate = s.terminate) ∧
    (bind ≠ "" →
      (StdCmd.start bind s).1.thread = some () ∧
      (StdCmd.start bind s).1.terminate = some false) ∧
    (StdCmd.start bind s).2 = [EventPriority.LOWEST] ∧
    (StdCmd.start bind s).1.handlers = some defaultHandlers := by
  refine ⟨?_, ?_, rfl, ?_⟩
  · intro hb
    simp [StdCmd.start, hb]
  · intro hb
    simp [StdCmd.start, hb]
  · by_cases hb : bind = "" <;> simp [StdCmd.start, hb]

/-- Witness for C8 (corrected): both branches at concrete inputs — empty
address leaves the lifecycle fields of the fresh state untouched, the
default address creates thread and terminate event. -/
theorem start_lifecycle_witness :
    ((StdCmd.start "" initialState).1.thread = none ∧
     (StdCmd.start "" initialState).1.terminate = none) ∧
    ((StdCmd.start "/tmp/nite.sock" initialState).1.thread = some () ∧
     (StdCmd.start "/tmp/nite.sock" initialState).1.terminate = some false) :=
  ⟨⟨(((start_lifecycle "" initialState).1) rfl).1.trans rfl,
    (((start_lifecycle "" initialState).1) rfl).2.trans rfl⟩,
   ((start_lifecycle "/tmp/nite.sock" initialState).2.1) (by decide)⟩

/-- Claim C9 (confirmed, initial state modelled from the spec): before start
has ever run, the thread field is None, so stop finds no background context
and returns the state unchanged, without error and without effect. -/
theorem stop_before_start_noop :
    initialState.thread = none ∧ StdCmd.stop initialState = initialState :=
  ⟨rfl, rfl⟩

/-- Claim C10 (confirmed): dispatch over the built-in registry, and each of
the built-in help, stop and reload handlers individually, leave
event.command exactly as it was; only response and handled can change. -/
theorem dispatch_preserves_event_command (rows : List (String × String))
    (e : CommandEvent) :
    ((on_command defaultHandlers e).1).command = e.command ∧
    ((on_help_command rows e).1).command = e.command ∧
    ((on_stop_command e).1).command = e.command ∧
    ((on_reload_command e).1).command = e.command :=
  ⟨on_command_default_preserves_command e, rfl, rfl, rfl⟩

/-- Claim C3 counterexample: the help table lists the registry rows in dict
insertion order — help, stop, reload for the registry built by start — and
that order is not sorted (alphabetically reload precedes stop), so the
claimed sorted rendering is false on this program. -/
theorem on_help_rows_not_sorted :
    (registryRows defaultHandlers).map Prod.fst = ["help", "stop", "reload"] ∧
    ¬ List.Pairwise (fun a b : String => a.data < b.data ∨ a.data = b.data)
        ["help", "stop", "reload"] := by
  constructor
  · rfl
  · decide

/-- Claim C3 (corrected): for every registry with N entries, the help handler
sets event.response to the two-column rendering of the registry rows, which
hold exactly the N registered command names — distinct when the registry
keys are — each paired with its registered description, in registry
insertion order (deterministic, but not sorted); it never fails even on an
empty registry, and a second invocation on an unchanged registry produces
the identical response. -/
theorem on_help_renders_registry_rows (reg : Registry) (e : CommandEvent) :
    (on_help_command (registryRows reg) e).1.response
      = some (renderTable (registryRows reg)) ∧
    (registryRows reg).map Prod.fst = reg.map Prod.fst ∧
    (tableLines (registryRows reg)).length = reg.length + 1 ∧
    ((reg.map Prod.fst).Nodup → ((registryRows reg).map Prod.fst).Nodup) ∧
    (∀ c d, (c, d) ∈ registryRows reg ↔ ∃ en, (c, en) ∈ reg ∧ en.descr = d) ∧
    (on_help_command (registryRows reg)
        ((on_help_command (registryRows reg) e).1)).1.response
      = (on_help_command (registryRows reg) e).1.response := by
  have hkeys : (registryRows reg).map Prod.fst = reg.map Prod.fst := by
    simp [registryRows, List.map_map, Function.comp]
  refine ⟨rfl, hkeys, ?_, ?_, ?_, rfl⟩
  · simp [tableLines, registryRows]
  · intro hnd
    rw [hkeys]
    exact hnd
  · intro c d
    constructor
    · intro hmem
      simp only [registryRows, List.mem_map] at hmem
      obtain ⟨⟨k, en⟩, hpr, heq⟩ := hmem
      simp only [Prod.mk.injEq] at heq
      obtain ⟨h1, h2⟩ := heq
      subst h1
      exact ⟨en, hpr, h2⟩
    · rintro ⟨en, hpr, hd⟩
      simp only [registryRows, List.mem_map]
      exact ⟨(c, en), hpr, by simp [hd]⟩

/-- Witness for C3 (corrected): the built-in registry has distinct keys, its
rows inherit that distinctness, and invoking help on it stores the rendered
table in the response. -/
theorem on_help_renders_registry_rows_witness :
    (defaultHandlers.map Prod.fst).Nodup ∧
    ((registryRows defaultHandlers).map Prod.fst).Nodup ∧
    (on_help_command (registryRows defaultHandlers) (CommandEvent.init "help")).1.response
      = some (renderTable (registryRows defaultHandlers)) :=
  ⟨by decide,
   (on_help_renders_registry_rows defaultHandlers (CommandEvent.init "help")).2.2.2.1
     (by decide),
   (on_help_renders_registry_rows defaultHandlers (CommandEvent.init "help")).1⟩

/-- Claim C4 counterexample: for the chunk 61 20 FF (hex), handle_read strips
the raw bytes first — FF is not whitespace, so the space survives — and then
decodes, dispatching a command equal to the string of characters a and space;
decoding first and trimming afterwards, as the claim states, would give the
one-character command a instead. -/
theorem handle_read_strip_order_counterexample :
    (handle_read defaultHandlers [97, 32, 255]).1 =
      some { command := "a ",
             response := some (invalidCommandMessage "a "),
             handled := false } ∧
    String.mk (utf8DecodeIgnore (bytesRstrip [97, 32, 255])) = "a " ∧
    strRstrip (String.mk (utf8DecodeIgnore [97, 32, 255])) = "a" ∧
    ("a " : String) ≠ "a" := by
  refine ⟨by decide, by decide, by decide, by decide⟩

/-- Claim C4 (corrected): the CommandEvent dispatched for a received chunk
carries command equal to the chunk with trailing ASCII whitespace bytes
stripped first and the remainder decoded as UTF-8 with invalid sequences
ignored; when that result is empty — in particular for chunks made only of
whitespace — no CommandEvent is dispatched and nothing is sent. -/
theorem handle_read_command_construction (reg : Registry) (chunk : List Nat) :
    (chunk.all isSpaceByte = true → handle_read reg chunk = (none, none)) ∧
    (String.mk (utf8DecodeIgnore (bytesRstrip chunk)) = "" →
      handle_read reg chunk = (none, none)) ∧
    (∀ e, (handle_read defaultHandlers chunk).1 = some e →
      e.command = String.mk (utf8DecodeIgnore (bytesRstrip chunk))) := by
  have hempty : String.mk (utf8DecodeIgnore (bytesRstrip chunk)) = "" →
      handle_read reg chunk = (none, none) := by
    intro hd
    simp [handle_read, hd]
  refine ⟨?_, hempty, ?_⟩
  · intro hall
    apply hempty
    rw [bytesRstrip_all_space chunk hall]
    rfl
  · intro e he
    by_cases hd : String.mk (utf8DecodeIgnore (bytesRstrip chunk)) = ""
    · simp [handle_read, hd] at he
    · simp only [handle_read, if_neg hd, Option.some.injEq] at he
      rw [← he]
      exact on_command_default_preserves_command (CommandEvent.init _)

/-- Witness for C4 (corrected): a whitespace-only chunk dispatches nothing
and sends nothing, while the single byte 68 (hex) dispatches an event whose
command is the stripped-then-decoded text h. -/
theorem handle_read_command_construction_witness :
    ([32, 9].all isSpaceByte = true ∧
     handle_read defaultHandlers [32, 9] = (none, none)) ∧
    ((handle_read defaultHandlers [104]).1 =
       some { command := "h", response := some (invalidCommandMessage "h"),
              handled := false } ∧
     ({ command := "h", response := some (invalidCommandMessage "h"),
        handled := false } : CommandEvent).command
       = String.mk (utf8DecodeIgnore (bytesRstrip [104]))) :=
  ⟨⟨by decide, (handle_read_command_construction defaultHandlers [32, 9]).1 (by decide)⟩,
   ⟨by decide, (handle_read_command_construction defaultHandlers [104]).2.2 _ (by decide)⟩⟩

/-- Claim C5 (confirmed): whenever handle_read dispatched an event, the text
written back to the peer is exactly response concatenated with a newline
when the response is a non-empty string (the write sends its UTF-8
encoding), and nothing when the response is None or the empty string. -/
theorem handle_read_response_write (reg : Registry) (chunk : List Nat)
    (e : CommandEvent) (he : (handle_read reg chunk).1 = some e) :
    ((e.response = none ∨ e.response = some "") → (handle_read reg chunk).2 = none) ∧
    (∀ r, e.response = some r → r ≠ "" → (handle_read reg chunk).2 = some (r ++ "\n")) := by
  by_cases hd : String.mk (utf8DecodeIgnore (bytesRstrip chunk)) = ""
  · simp [handle_read, hd] at he
  · simp only [handle_read, if_neg hd, Option.some.injEq] at he ⊢
    subst he
    constructor
    · intro hresp
      rcases hresp with h0 | h0 <;> simp [h0]
    · intro r hr hne
      simp [hr, hne]

/-- Witness for C5: the unknown command bogus yields the invalid-command
response, and handle_read sends exactly that response plus a newline. -/
theorem handle_read_response_write_witness :
    (handle_read defaultHandlers [98, 111, 103, 117, 115]).2 =
      some (invalidCommandMessage "bogus" ++ "\n") :=
  (handle_read_response_write defaultHandlers [98, 111, 103, 117, 115]
      { command := "bogus", response := some (invalidCommandMessage "bogus"),
        handled := false }
      (by decide)).2 (invalidCommandMessage "bogus") rfl (by decide)

/-- Claim C6 (confirmed): a bind address without a colon selects a Unix-domain
stream socket bound to the whole address as a filesystem path; an address
with a colon selects a TCP stream socket whose host is the portion before
the last colon and whose port is int() of the portion after the last colon
(the decomposition below states exactly that: the address is host, then one
colon, then a colon-free port text). -/
theorem commandServer_family_selection (s : List Char) :
    (':' ∉ s → CommandServer.init s = ⟨SocketFamily.AF_UNIX, BindArgs.path s⟩) ∧
    (∀ h p, splitLastColon s = some (h, p) →
      s = h ++ ':' :: p ∧ ':' ∉ p ∧
      CommandServer.init s =
        ⟨SocketFamily.AF_INET, BindArgs.hostPort h (pyToInt p)⟩) ∧
    (':' ∈ s → (splitLastColon s).isSome = true) := by
  refine ⟨?_, ?_, ?_⟩
  · intro hno
    simp only [CommandServer.init]
    rw [pySplit_not_mem ':' s hno]
    rfl
  · intro h p hsp
    obtain ⟨hdec, hnp⟩ := splitLastColon_decomp s h p hsp
    refine ⟨hdec, hnp, ?_⟩
    simp only [CommandServer.init]
    rw [hdec, pySplit_append ':' h p, pySplit_not_mem ':' p hnp]
    cases hph : pySplit ':' h with
    | nil => exact absurd hph (pySplit_ne_nil ':' h)
    | cons x t =>
      have hlen : ¬ (((x :: t) ++ [p]).length = 1) := by
        simp
      rw [if_neg hlen]
      have h1 : ((x :: t) ++ [p]).dropLast = x :: t := by
        rw [List.dropLast_concat]
      have h2 : ((x :: t) ++ [p]).getLastD [] = p := getLastD_append_single (x :: t) p []
      rw [h1, h2, ← hph, intercalateColon_pySplit h]
  · intro hmem
    cases hsp : splitLastColon s with
    | some v => rfl
    | none => exact absurd hmem (splitLastColon_none_no_colon s hsp)

/-- Witness for C6: the address hi:80 decomposes into host hi and port text
80 around its last colon, and the server selects a TCP socket bound to that
host with port int(80). -/
theorem commandServer_family_selection_witness :
    (['h', 'i', ':', '8', '0'] = ['h', 'i'] ++ ':' :: ['8', '0'] ∧
     ':' ∉ ['8', '0'] ∧
     CommandServer.init ['h', 'i', ':', '8', '0'] =
       ⟨SocketFamily.AF_INET, BindArgs.hostPort ['h', 'i'] (pyToInt ['8', '0'])⟩) ∧
    pyToInt ['8', '0'] = some 80 :=
  ⟨(commandServer_family_selection ['h', 'i', ':', '8', '0']).2.1
      ['h', 'i'] ['8', '0'] rfl,
   rfl⟩
